import Mathlib

/-!
Verification of the cross-embodiment correspondence and reward computation of
`scripts/gazebo_env.py` (functions `link_distance`, `cartesian_product`,
`calculate_weight_matrix`, and the `GazeboEnv` methods `_calculate_reward` and
the reward invocation inside `step`).  Numeric arrays are embedded as functions
out of `Fin`, numpy reals as `ℝ`.
-/

open Finset

/-! ## Vectors and data matrices

A per-link data matrix is a 3×4 real matrix: 3 spatial components (rows) and
4 columns.  `data_matrix[:, k]` of the source becomes `col m k`. -/

abbrev Vec3 := Fin 3 → ℝ

abbrev DataMatrix := Fin 3 → Fin 4 → ℝ

/-- Column extraction, the numpy slice `m[:, k]`. -/
def col (m : DataMatrix) (k : Fin 4) : Vec3 := fun r => m r k

/-- Componentwise difference of 3-vectors (numpy `a - b`). -/
def vsub (u v : Vec3) : Vec3 := fun r => u r - v r

/-- `np.dot` on 3-vectors. -/
def dot3 (u v : Vec3) : ℝ := u 0 * v 0 + u 1 * v 1 + u 2 * v 2

/-- `np.linalg.norm` on 3-vectors: the euclidean norm. -/
noncomputable def norm3 (v : Vec3) : ℝ := Real.sqrt (v 0 ^ 2 + v 1 ^ 2 + v 2 ^ 2)

/-! ## `link_distance` (gazebo_env.py, lines 28–53)

The source fixes the four weights, then reads: column 3 for the translation
term, column 0 for the orientation term, column 1 for the linear-velocity term
and column 2 for the rotational-velocity term. -/

def weight_t_dist : ℝ := 0.0
def weight_o_dist : ℝ := 1.0
def weight_lin_vel : ℝ := 0.001
def weight_rot_vel : ℝ := 0.04

/-- `np.linalg.norm(data_matrix1[:, 3] - data_matrix2[:, 3])`. -/
noncomputable def translation_distance (m1 m2 : DataMatrix) : ℝ :=
  norm3 (vsub (col m1 3) (col m2 3))

/-- `1 - np.dot(data_matrix1[:, 0], data_matrix2[:, 0])`. -/
def orientation_distance (m1 m2 : DataMatrix) : ℝ := 1 - dot3 (col m1 0) (col m2 0)

/-- `np.linalg.norm(data_matrix1[:, 1] - data_matrix2[:, 1])`. -/
noncomputable def lin_vel_distance (m1 m2 : DataMatrix) : ℝ :=
  norm3 (vsub (col m1 1) (col m2 1))

/-- `np.linalg.norm(data_matrix1[:, 2] - data_matrix2[:, 2])` (column 2). -/
noncomputable def rot_vel_distance (m1 m2 : DataMatrix) : ℝ :=
  norm3 (vsub (col m1 2) (col m2 2))

/-- `link_distance` of the source: the weighted sum of the four terms. -/
noncomputable def link_distance (m1 m2 : DataMatrix) : ℝ :=
  weight_t_dist * translation_distance m1 m2 + weight_o_dist * orientation_distance m1 m2
    + weight_lin_vel * lin_vel_distance m1 m2 + weight_rot_vel * rot_vel_distance m1 m2

/-- The formula claim C2 states, built from the SPEC's words and its data-matrix
column convention (column 1 = position, column 2 = linear velocity, column 3 =
angular velocity): weight 0.0 on the column-1 difference, 0.001 on the
column-2 difference and 0.04 on the column-3 difference. -/
noncomputable def link_distance_spec (m1 m2 : DataMatrix) : ℝ :=
  0.0 * norm3 (vsub (col m1 1) (col m2 1)) + 1.0 * (1 - dot3 (col m1 0) (col m2 0))
    + 0.001 * norm3 (vsub (col m1 2) (col m2 2)) + 0.04 * norm3 (vsub (col m1 3) (col m2 3))

/-- Counterexample frames for C2: both have orientation axis (1,0,0) and zeros
everywhere else, except that `c2_m1` has (3,0,0) in column 1. -/
def c2_m1 : DataMatrix := ![![1, 3, 0, 0], ![0, 0, 0, 0], ![0, 0, 0, 0]]

def c2_m2 : DataMatrix := ![![1, 0, 0, 0], ![0, 0, 0, 0], ![0, 0, 0, 0]]

theorem sqrt_nine : Real.sqrt 9 = 3 := by
  rw [show (9 : ℝ) = 3 ^ 2 by norm_num, Real.sqrt_sq (by norm_num : (0:ℝ) ≤ 3)]

/-- C2 (counterexample): on the concrete frames `c2_m1`, `c2_m2` the source's
`link_distance` returns 0.003 (it reads the linear-velocity term from
column 1) while the claimed formula returns 0. -/
theorem claim_C2_counterexample : link_distance c2_m1 c2_m2 ≠ link_distance_spec c2_m1 c2_m2 := by
  have h1 : link_distance c2_m1 c2_m2 = 0.003 := by
    simp only [link_distance, translation_distance, orientation_distance, lin_vel_distance,
      rot_vel_distance, weight_t_dist, weight_o_dist, weight_lin_vel, weight_rot_vel,
      norm3, dot3, vsub, col, c2_m1, c2_m2, Matrix.cons_val_zero, Matrix.cons_val_one,
      Matrix.cons_val_two, Matrix.cons_val_three, Matrix.head_cons, Matrix.vecHead,
      Matrix.vecTail, Function.comp]
    norm_num [sqrt_nine]
  have h2 : link_distance_spec c2_m1 c2_m2 = 0 := by
    simp only [link_distance_spec, norm3, dot3, vsub, col, c2_m1, c2_m2,
      Matrix.cons_val_zero, Matrix.cons_val_one, Matrix.cons_val_two, Matrix.cons_val_three,
      Matrix.head_cons, Matrix.vecHead, Matrix.vecTail, Function.comp]
    norm_num
  rw [h1, h2]; norm_num

/-- C2 (amended): for every pair of 3×4 data matrices, `link_distance` returns
`0.0 * ‖col3₁ - col3₂‖ + 1.0 * (1 - dot(col0₁, col0₂)) + 0.001 * ‖col1₁ - col1₂‖
+ 0.04 * ‖col2₁ - col2₂‖`: the translation term reads column 3, the
linear-velocity term reads column 1 and the angular-velocity term reads
column 2. -/
theorem claim_C2_amended (m1 m2 : DataMatrix) :
    link_distance m1 m2
      = 0.0 * norm3 (vsub (col m1 3) (col m2 3)) + 1.0 * (1 - dot3 (col m1 0) (col m2 0))
        + 0.001 * norm3 (vsub (col m1 1) (col m2 1)) + 0.04 * norm3 (vsub (col m1 2) (col m2 2)) := by
  simp only [link_distance, translation_distance, orientation_distance, lin_vel_distance,
    rot_vel_distance, weight_t_dist, weight_o_dist, weight_lin_vel, weight_rot_vel]

/-! ## Embodiments

Only the attributes the core consumes: the chain positions of the links and
the model function producing one data matrix per link from joint angles and
velocities (the absolute joint frames it also returns are ignored by the
reward computation, so they are not modelled). -/

structure Embodiment (n : ℕ) where
  link_dists_from_origin : Fin n → ℝ
  data_matrices : (Fin n → ℝ) → (Fin n → ℝ) → Fin n → DataMatrix

/-! ## The numpy repeat/tile/reshape cross-product pipeline

`np.repeat(v, L, 0)` repeats every element `L` times consecutively;
`np.tile(v, E)` cycles through `v` `E` times; reshaping the flat length-`E*L`
result to `E × L` is row-major.  On `Fin`-indexed arrays these become index
arithmetic on the flat index `i * L + j`. -/

/-- Row-major flat position of `(i, j)` inside `Fin (E * L)`. -/
def finPair {E L : ℕ} (i : Fin E) (j : Fin L) : Fin (E * L) :=
  ⟨i.val * L + j.val, by
    calc i.val * L + j.val < i.val * L + L := Nat.add_lt_add_left j.isLt _
      _ = (i.val + 1) * L := by ring
      _ ≤ E * L := Nat.mul_le_mul_right L i.isLt⟩

/-- `np.repeat(v, L, 0)`: element `k` of the flat result is `v (k / L)`. -/
def np_repeat {α : Type} {E : ℕ} (L : ℕ) (v : Fin E → α) : Fin (E * L) → α :=
  fun k => v ⟨k.val / L, by
    rcases Nat.eq_zero_or_pos L with h | h
    · exact absurd k.isLt (by simp [h])
    · exact (Nat.div_lt_iff_lt_mul h).mpr k.isLt⟩

/-- `np.tile(v, E)`: element `k` of the flat result is `v (k % L)`. -/
def np_tile {α : Type} {L : ℕ} (E : ℕ) (v : Fin L → α) : Fin (E * L) → α :=
  fun k => v ⟨k.val % L, by
    rcases Nat.eq_zero_or_pos L with h | h
    · exact absurd k.isLt (by simp [h])
    · exact Nat.mod_lt _ h⟩

/-- Row-major `np.reshape` of a flat length-`E*L` array to `E × L`. -/
def np_reshape2 {α : Type} {E L : ℕ} (v : Fin (E * L) → α) : Fin E → Fin L → α :=
  fun i j => v (finPair i j)

lemma finPair_div {E L : ℕ} (i : Fin E) (j : Fin L) : (finPair i j).val / L = i.val := by
  have hL : 0 < L := lt_of_le_of_lt (Nat.zero_le _) j.isLt
  simp only [finPair]
  rw [Nat.add_comm, Nat.add_mul_div_right _ _ hL, Nat.div_eq_of_lt j.isLt, Nat.zero_add]

lemma finPair_mod {E L : ℕ} (i : Fin E) (j : Fin L) : (finPair i j).val % L = j.val := by
  simp only [finPair]
  rw [Nat.add_comm, Nat.add_mul_mod_self_right, Nat.mod_eq_of_lt j.isLt]

lemma np_repeat_finPair {α : Type} {E L : ℕ} (v : Fin E → α) (i : Fin E) (j : Fin L) :
    np_repeat L v (finPair i j) = v i := by
  simp only [np_repeat]
  congr 1
  exact Fin.ext (finPair_div i j)

lemma np_tile_finPair {α : Type} {E L : ℕ} (v : Fin L → α) (i : Fin E) (j : Fin L) :
    np_tile E v (finPair i j) = v j := by
  simp only [np_tile]
  congr 1
  exact Fin.ext (finPair_mod i j)

/-! ## Softmax along each axis (`scipy.special.softmax`) -/

/-- `softmax(M, axis=0)`: entry `(i, j)` is normalized over the column `j`. -/
noncomputable def softmax_axis0 {E L : ℕ} (M : Fin E → Fin L → ℝ) : Fin E → Fin L → ℝ :=
  fun i j => Real.exp (M i j) / ∑ k, Real.exp (M k j)

/-- `softmax(M, axis=1)`: entry `(i, j)` is normalized over the row `i`. -/
noncomputable def softmax_axis1 {E L : ℕ} (M : Fin E → Fin L → ℝ) : Fin E → Fin L → ℝ :=
  fun i j => Real.exp (M i j) / ∑ k, Real.exp (M i k)

lemma softmax_axis0_nonneg {E L : ℕ} (M : Fin E → Fin L → ℝ) (i : Fin E) (j : Fin L) :
    0 ≤ softmax_axis0 M i j :=
  div_nonneg (Real.exp_pos _).le (Finset.sum_nonneg fun k _ => (Real.exp_pos (M k j)).le)

lemma softmax_axis0_le_one {E L : ℕ} (M : Fin E → Fin L → ℝ) (i : Fin E) (j : Fin L) :
    softmax_axis0 M i j ≤ 1 := by
  have hpos : 0 < ∑ k, Real.exp (M k j) :=
    Finset.sum_pos (fun k _ => Real.exp_pos _) ⟨i, Finset.mem_univ i⟩
  exact div_le_one_of_le₀
    (Finset.single_le_sum (fun k _ => (Real.exp_pos (M k j)).le) (Finset.mem_univ i)) hpos.le

lemma softmax_axis1_eq_transpose {E L : ℕ} (M : Fin E → Fin L → ℝ) (i : Fin E) (j : Fin L) :
    softmax_axis1 M i j = softmax_axis0 (fun b a => M a b) j i := rfl

lemma softmax_axis1_nonneg {E L : ℕ} (M : Fin E → Fin L → ℝ) (i : Fin E) (j : Fin L) :
    0 ≤ softmax_axis1 M i j := by
  rw [softmax_axis1_eq_transpose]; exact softmax_axis0_nonneg _ j i

lemma softmax_axis1_le_one {E L : ℕ} (M : Fin E → Fin L → ℝ) (i : Fin E) (j : Fin L) :
    softmax_axis1 M i j ≤ 1 := by
  rw [softmax_axis1_eq_transpose]; exact softmax_axis0_le_one _ j i

/-- Every column of the axis-0 softmax sums to 1 (nonempty column). -/
lemma softmax_axis0_colsum {E L : ℕ} (hE : 0 < E) (M : Fin E → Fin L → ℝ) (j : Fin L) :
    ∑ i, softmax_axis0 M i j = 1 := by
  have hpos : 0 < ∑ k, Real.exp (M k j) :=
    Finset.sum_pos (fun k _ => Real.exp_pos _) ⟨⟨0, hE⟩, Finset.mem_univ _⟩
  simp only [softmax_axis0]
  rw [← Finset.sum_div, div_self hpos.ne']

/-- Every row of the axis-1 softmax sums to 1 (nonempty row). -/
lemma softmax_axis1_rowsum {E L : ℕ} (hL : 0 < L) (M : Fin E → Fin L → ℝ) (i : Fin E) :
    ∑ j, softmax_axis1 M i j = 1 := by
  simp only [softmax_axis1_eq_transpose]
  exact softmax_axis0_colsum hL (fun b a => M a b) i

/-! ## `calculate_weight_matrix` (gazebo_env.py, lines 82–107) -/

noncomputable def calculate_weight_matrix {E L : ℕ} (e_embodiment : Embodiment E)
    (l_embodiment : Embodiment L) (distinctness : ℝ) : Fin E → Fin L → ℝ :=
  let cart_product_fst := np_repeat L e_embodiment.link_dists_from_origin
  let cart_product_snd := np_tile E l_embodiment.link_dists_from_origin
  let distances := fun k => |cart_product_fst k - cart_product_snd k|
  let distance_matrix := np_reshape2 distances
  let distance_matrix_sm := fun i j => distance_matrix i j * -distinctness
  fun i j => softmax_axis0 distance_matrix_sm i j + softmax_axis1 distance_matrix_sm i j

/-- Closed form of a weight-matrix entry: the two softmaxes of the scaled
absolute chain-position differences. -/
lemma calculate_weight_matrix_entry {E L : ℕ} (eEmb : Embodiment E) (lEmb : Embodiment L)
    (d : ℝ) (i : Fin E) (j : Fin L) :
    calculate_weight_matrix eEmb lEmb d i j
      = softmax_axis0
          (fun a b => |eEmb.link_dists_from_origin a - lEmb.link_dists_from_origin b| * -d) i j
        + softmax_axis1
          (fun a b => |eEmb.link_dists_from_origin a - lEmb.link_dists_from_origin b| * -d) i j := by
  have hM : (fun (a : Fin E) (b : Fin L) =>
        np_reshape2 (fun k => |np_repeat L eEmb.link_dists_from_origin k
          - np_tile E lEmb.link_dists_from_origin k|) a b * -d)
      = fun a b => |eEmb.link_dists_from_origin a - lEmb.link_dists_from_origin b| * -d := by
    funext a b
    rw [np_reshape2, np_repeat_finPair, np_tile_finPair]
  simp only [calculate_weight_matrix]
  rw [hM]

/-! ## Claims about `calculate_weight_matrix` -/

/-- The weight matrix as the SPEC words it: `softmax(-d*D, axis=0) +
softmax(-d*D, axis=1)` with `D i j = |expert_dist i - learner_dist j|`. -/
noncomputable def weight_matrix_spec {E L : ℕ} (e : Fin E → ℝ) (l : Fin L → ℝ) (d : ℝ) :
    Fin E → Fin L → ℝ :=
  fun i j => softmax_axis0 (fun a b => -d * |e a - l b|) i j
    + softmax_axis1 (fun a b => -d * |e a - l b|) i j

/-- C1: for every expert/learner chain-position sequence and every distinctness
value, `calculate_weight_matrix` returns exactly
`softmax(-d*D, axis=0) + softmax(-d*D, axis=1)` element-wise, where
`D i j = |expert_dist i - learner_dist j|` comes from the expert-major cross
product of the two chain-position sequences. -/
theorem claim_C1 {E L : ℕ} (eEmb : Embodiment E) (lEmb : Embodiment L) (d : ℝ)
    (i : Fin E) (j : Fin L) :
    calculate_weight_matrix eEmb lEmb d i j
      = weight_matrix_spec eEmb.link_dists_from_origin lEmb.link_dists_from_origin d i j := by
  rw [calculate_weight_matrix_entry]
  have h : (fun (a : Fin E) (b : Fin L) =>
        |eEmb.link_dists_from_origin a - lEmb.link_dists_from_origin b| * -d)
      = fun a b => -d * |eEmb.link_dists_from_origin a - lEmb.link_dists_from_origin b| := by
    funext a b; ring
  rw [weight_matrix_spec, h]

/-- C6: the weight matrix has type `Fin E → Fin L → ℝ` (shape
`num_links(expert) × num_links(learner)`), and every entry lies in `[0, 2]`. -/
theorem claim_C6 {E L : ℕ} (eEmb : Embodiment E) (lEmb : Embodiment L) (d : ℝ)
    (i : Fin E) (j : Fin L) :
    0 ≤ calculate_weight_matrix eEmb lEmb d i j ∧ calculate_weight_matrix eEmb lEmb d i j ≤ 2 := by
  rw [calculate_weight_matrix_entry]
  constructor
  · exact add_nonneg (softmax_axis0_nonneg _ i j) (softmax_axis1_nonneg _ i j)
  · have h0 := softmax_axis0_le_one
      (fun a b => |eEmb.link_dists_from_origin a - lEmb.link_dists_from_origin b| * -d) i j
    have h1 := softmax_axis1_le_one
      (fun a b => |eEmb.link_dists_from_origin a - lEmb.link_dists_from_origin b| * -d) i j
    linarith

/-- C7: role exchange transposes the weight matrix: computing the matrix with
the learner as expert and the expert as learner gives the transpose of the
original matrix. -/
theorem claim_C7 {E L : ℕ} (eEmb : Embodiment E) (lEmb : Embodiment L) (d : ℝ)
    (i : Fin E) (j : Fin L) :
    calculate_weight_matrix lEmb eEmb d j i = calculate_weight_matrix eEmb lEmb d i j := by
  rw [calculate_weight_matrix_entry, calculate_weight_matrix_entry]
  have hN : (fun (b : Fin L) (a : Fin E) =>
        |lEmb.link_dists_from_origin b - eEmb.link_dists_from_origin a| * -d)
      = fun b a => |eEmb.link_dists_from_origin a - lEmb.link_dists_from_origin b| * -d := by
    funext b a; rw [abs_sub_comm]
  rw [hN]
  exact add_comm
    (softmax_axis1 (fun a b =>
      |eEmb.link_dists_from_origin a - lEmb.link_dists_from_origin b| * -d) i j)
    (softmax_axis0 (fun a b =>
      |eEmb.link_dists_from_origin a - lEmb.link_dists_from_origin b| * -d) i j)

/-- C9: with at least one link on each side, the entries of the weight matrix
sum to exactly `E + L`: each of the `L` columns of the axis-0 softmax sums
to 1 and each of the `E` rows of the axis-1 softmax sums to 1. -/
theorem claim_C9 {E L : ℕ} (eEmb : Embodiment E) (lEmb : Embodiment L) (d : ℝ)
    (hE : 0 < E) (hL : 0 < L) :
    ∑ i, ∑ j, calculate_weight_matrix eEmb lEmb d i j = (E : ℝ) + (L : ℝ) := by
  have hentry : ∀ (i : Fin E) (j : Fin L), calculate_weight_matrix eEmb lEmb d i j
      = softmax_axis0
          (fun a b => |eEmb.link_dists_from_origin a - lEmb.link_dists_from_origin b| * -d) i j
        + softmax_axis1
          (fun a b => |eEmb.link_dists_from_origin a - lEmb.link_dists_from_origin b| * -d) i j :=
    calculate_weight_matrix_entry eEmb lEmb d
  simp only [hentry, Finset.sum_add_distrib]
  have h0 : ∑ i, ∑ j, softmax_axis0
      (fun a b => |eEmb.link_dists_from_origin a - lEmb.link_dists_from_origin b| * -d) i j
      = (L : ℝ) := by
    rw [Finset.sum_comm]
    have := fun j : Fin L => softmax_axis0_colsum hE
      (fun a b => |eEmb.link_dists_from_origin a - lEmb.link_dists_from_origin b| * -d) j
    simp only [this, Finset.sum_const, Finset.card_univ, Fintype.card_fin, nsmul_eq_mul, mul_one]
  have h1 : ∑ i, ∑ j, softmax_axis1
      (fun a b => |eEmb.link_dists_from_origin a - lEmb.link_dists_from_origin b| * -d) i j
      = (E : ℝ) := by
    have := fun i : Fin E => softmax_axis1_rowsum hL
      (fun a b => |eEmb.link_dists_from_origin a - lEmb.link_dists_from_origin b| * -d) i
    simp only [this, Finset.sum_const, Finset.card_univ, Fintype.card_fin, nsmul_eq_mul, mul_one]
  rw [h0, h1, add_comm]

/-- A one-link embodiment at chain distance 0 with all-zero data matrices,
used to instantiate theorems with hypotheses at a concrete input. -/
def one_link_embodiment : Embodiment 1 where
  link_dists_from_origin := fun _ => 0
  data_matrices := fun _ _ _ => fun _ _ => 0

theorem claim_C9_witness :
    ∑ i, ∑ j, calculate_weight_matrix one_link_embodiment one_link_embodiment 100 i j
      = ((1 : ℕ) : ℝ) + ((1 : ℕ) : ℝ) :=
  claim_C9 one_link_embodiment one_link_embodiment 100 Nat.one_pos Nat.one_pos

/-! ## `GazeboEnv._calculate_reward` (gazebo_env.py, lines 335–344)

The method reads `self.e_embodiment`, `self.l_embodiment` and
`self.weight_matrix`; those become explicit arguments here.  It pairs the two
embodiments' data matrices through the flat cartesian product (expert-major,
learner varying fastest), negates the per-pair link distance, reshapes to
`E × L`, multiplies element-wise by the weight matrix and takes `np.mean`. -/

noncomputable def calculate_reward {E L : ℕ} (e_embodiment : Embodiment E)
    (l_embodiment : Embodiment L) (weight_matrix : Fin E → Fin L → ℝ)
    (e_angles e_angle_velocities : Fin E → ℝ) (l_angles l_angle_velocities : Fin L → ℝ) : ℝ :=
  let e_data_matrices := e_embodiment.data_matrices e_angles e_angle_velocities
  let l_data_matrices := l_embodiment.data_matrices l_angles l_angle_velocities
  let combinations_fst := np_repeat L e_data_matrices
  let combinations_snd := np_tile E l_data_matrices
  let distances : Fin (E * L) → ℝ := fun k => -link_distance (combinations_fst k) (combinations_snd k)
  let distance_matrix := np_reshape2 distances
  let weighted_matrix := fun i j => distance_matrix i j * weight_matrix i j
  (∑ i, ∑ j, weighted_matrix i j) / (E * L)

/-- Closed form of the reward: the flat cross product contributes exactly the
pair `(i, j)` at matrix position `(i, j)`. -/
lemma calculate_reward_eq {E L : ℕ} (eEmb : Embodiment E) (lEmb : Embodiment L)
    (W : Fin E → Fin L → ℝ) (ea ev : Fin E → ℝ) (la lv : Fin L → ℝ) :
    calculate_reward eEmb lEmb W ea ev la lv
      = (∑ i, ∑ j, -link_distance (eEmb.data_matrices ea ev i) (lEmb.data_matrices la lv j)
          * W i j) / (E * L) := by
  simp only [calculate_reward, np_reshape2, np_repeat_finPair, np_tile_finPair]

/-- C3: the reward is the arithmetic mean over all `E*L` entries of the matrix
`M i j = W i j * (-link_distance (expert_dm i) (learner_dm j))`, the per-pair
distances coming from the expert-major cross product of the data matrices the
two model functions return. -/
theorem claim_C3 {E L : ℕ} (eEmb : Embodiment E) (lEmb : Embodiment L)
    (W : Fin E → Fin L → ℝ) (ea ev : Fin E → ℝ) (la lv : Fin L → ℝ) :
    calculate_reward eEmb lEmb W ea ev la lv
      = (∑ i, ∑ j, W i j
          * -link_distance (eEmb.data_matrices ea ev i) (lEmb.data_matrices la lv j)) / (E * L) := by
  rw [calculate_reward_eq]
  congr 1
  refine Finset.sum_congr rfl fun i _ => Finset.sum_congr rfl fun j _ => ?_
  ring

/-! ## The reward invocation inside `GazeboEnv.step` (gazebo_env.py, line 283)

The state the method reads: `self.e_position`, `self.e_velocity`,
`self.l_position`, `self.l_velocity` (expert fields already updated from the
recording for the current step).  The Python call passes `self.e_velocity` in
BOTH velocity slots, which in a typed embedding only fits when both embodiments
have the same number of links, as in the source's `__main__` block. -/

structure GazeboEnvState (E L : ℕ) where
  e_embodiment : Embodiment E
  l_embodiment : Embodiment L
  weight_matrix : Fin E → Fin L → ℝ
  e_position : Fin E → ℝ
  e_velocity : Fin E → ℝ
  l_position : Fin L → ℝ
  l_velocity : Fin L → ℝ

/-- The reward computed by `step`, exactly as invoked on line 283:
`self._calculate_reward(self.e_position, self.e_velocity, self.l_position,
self.e_velocity)`. -/
noncomputable def step_reward {n : ℕ} (env : GazeboEnvState n n) : ℝ :=
  calculate_reward env.e_embodiment env.l_embodiment env.weight_matrix
    env.e_position env.e_velocity env.l_position env.e_velocity

/-- C4: each step invokes the reward computation with the expert velocity in
both velocity slots, so the learner-velocity argument equals the expert
velocity and the learner velocity held in the state is never read: changing it
leaves the step reward unchanged. -/
theorem claim_C4 {n : ℕ} (env : GazeboEnvState n n) :
    step_reward env
        = calculate_reward env.e_embodiment env.l_embodiment env.weight_matrix
            env.e_position env.e_velocity env.l_position env.e_velocity
      ∧ ∀ lv : Fin n → ℝ, step_reward { env with l_velocity := lv } = step_reward env :=
  ⟨rfl, fun _ => rfl⟩

/-! ## C10: non-negative link distances and non-positive reward -/

/-- The orientation axis in column 0 is a unit vector. -/
def unit3 (v : Vec3) : Prop := v 0 ^ 2 + v 1 ^ 2 + v 2 ^ 2 = 1

lemma norm3_nonneg (v : Vec3) : 0 ≤ norm3 v := Real.sqrt_nonneg _

lemma orientation_distance_nonneg {m1 m2 : DataMatrix}
    (h1 : unit3 (col m1 0)) (h2 : unit3 (col m2 0)) : 0 ≤ orientation_distance m1 m2 := by
  simp only [orientation_distance, dot3, unit3] at h1 h2 ⊢
  nlinarith [sq_nonneg (col m1 0 0 - col m2 0 0), sq_nonneg (col m1 0 1 - col m2 0 1),
    sq_nonneg (col m1 0 2 - col m2 0 2)]

lemma link_distance_nonneg {m1 m2 : DataMatrix}
    (h1 : unit3 (col m1 0)) (h2 : unit3 (col m2 0)) : 0 ≤ link_distance m1 m2 := by
  have ht := norm3_nonneg (vsub (col m1 3) (col m2 3))
  have hlv := norm3_nonneg (vsub (col m1 1) (col m2 1))
  have hrv := norm3_nonneg (vsub (col m1 2) (col m2 2))
  have ho := orientation_distance_nonneg h1 h2
  simp only [link_distance, translation_distance, lin_vel_distance, rot_vel_distance,
    weight_t_dist, weight_o_dist, weight_lin_vel, weight_rot_vel]
  simp only [translation_distance, lin_vel_distance, rot_vel_distance] at ht hlv hrv
  nlinarith

/-- C10: if every data matrix of both embodiments carries a unit orientation
axis in column 0 and the weight matrix is entrywise non-negative, then every
pairwise link distance is non-negative and the reward is at most 0. -/
theorem claim_C10 {E L : ℕ} (eEmb : Embodiment E) (lEmb : Embodiment L)
    (W : Fin E → Fin L → ℝ) (ea ev : Fin E → ℝ) (la lv : Fin L → ℝ)
    (he : ∀ i, unit3 (col (eEmb.data_matrices ea ev i) 0))
    (hl : ∀ j, unit3 (col (lEmb.data_matrices la lv j) 0))
    (hW : ∀ i j, 0 ≤ W i j) :
    (∀ i j, 0 ≤ link_distance (eEmb.data_matrices ea ev i) (lEmb.data_matrices la lv j))
      ∧ calculate_reward eEmb lEmb W ea ev la lv ≤ 0 := by
  have hd : ∀ i j, 0 ≤ link_distance (eEmb.data_matrices ea ev i) (lEmb.data_matrices la lv j) :=
    fun i j => link_distance_nonneg (he i) (hl j)
  refine ⟨hd, ?_⟩
  rw [calculate_reward_eq]
  have hsum : (∑ i, ∑ j, -link_distance (eEmb.data_matrices ea ev i)
      (lEmb.data_matrices la lv j) * W i j) ≤ 0 := by
    refine Finset.sum_nonpos fun i _ => Finset.sum_nonpos fun j _ => ?_
    rw [neg_mul]
    exact neg_nonpos.mpr (mul_nonneg (hd i j) (hW i j))
  have hden : (0 : ℝ) ≤ (E : ℝ) * (L : ℝ) :=
    mul_nonneg (Nat.cast_nonneg E) (Nat.cast_nonneg L)
  exact div_nonpos_iff.mpr (Or.inr ⟨hsum, hden⟩)

/-- One-link embodiment whose single data matrix has unit orientation axis
(1,0,0) and zeros elsewhere. -/
def unit_axis_embodiment : Embodiment 1 where
  link_dists_from_origin := fun _ => 0
  data_matrices := fun _ _ _ => ![![1, 0, 0, 0], ![0, 0, 0, 0], ![0, 0, 0, 0]]

theorem claim_C10_witness :
    (∀ i j : Fin 1, 0 ≤ link_distance
        (unit_axis_embodiment.data_matrices (fun _ => 0) (fun _ => 0) i)
        (unit_axis_embodiment.data_matrices (fun _ => 0) (fun _ => 0) j))
      ∧ calculate_reward unit_axis_embodiment unit_axis_embodiment (fun _ _ => 1)
          (fun _ => 0) (fun _ => 0) (fun _ => 0) (fun _ => 0) ≤ 0 :=
  claim_C10 unit_axis_embodiment unit_axis_embodiment (fun _ _ => 1)
    (fun _ => 0) (fun _ => 0) (fun _ => 0) (fun _ => 0)
    (fun _ => by
      simp only [unit3, col, unit_axis_embodiment, Matrix.cons_val_zero, Matrix.cons_val_one,
        Matrix.cons_val_two, Matrix.head_cons, Matrix.vecHead, Matrix.vecTail, Function.comp]
      norm_num)
    (fun _ => by
      simp only [unit3, col, unit_axis_embodiment, Matrix.cons_val_zero, Matrix.cons_val_one,
        Matrix.cons_val_two, Matrix.head_cons, Matrix.vecHead, Matrix.vecTail, Function.comp]
      norm_num)
    (fun _ _ => by norm_num)

/-! ## C8: consistent permutation of one embodiment's link order -/

lemma softmax_axis0_perm_left {E L : ℕ} (M : Fin E → Fin L → ℝ) (p : Equiv.Perm (Fin E))
    (i : Fin E) (j : Fin L) :
    softmax_axis0 (fun a b => M (p a) b) i j = softmax_axis0 M (p i) j := by
  simp only [softmax_axis0]
  rw [Equiv.sum_comp p (fun k => Real.exp (M k j))]

lemma softmax_axis1_perm_left {E L : ℕ} (M : Fin E → Fin L → ℝ) (p : Equiv.Perm (Fin E))
    (i : Fin E) (j : Fin L) :
    softmax_axis1 (fun a b => M (p a) b) i j = softmax_axis1 M (p i) j := rfl

lemma softmax_axis0_perm_right {E L : ℕ} (M : Fin E → Fin L → ℝ) (q : Equiv.Perm (Fin L))
    (i : Fin E) (j : Fin L) :
    softmax_axis0 (fun a b => M a (q b)) i j = softmax_axis0 M i (q j) := rfl

lemma softmax_axis1_perm_right {E L : ℕ} (M : Fin E → Fin L → ℝ) (q : Equiv.Perm (Fin L))
    (i : Fin E) (j : Fin L) :
    softmax_axis1 (fun a b => M a (q b)) i j = softmax_axis1 M i (q j) := by
  simp only [softmax_axis1]
  rw [Equiv.sum_comp q (fun k => Real.exp (M i k))]

/-- Reordering the expert chain positions by `p` reorders the weight-matrix
rows by `p`. -/
lemma calculate_weight_matrix_perm_expert {E L : ℕ} {eEmb eEmb2 : Embodiment E}
    {lEmb : Embodiment L} {d : ℝ} {p : Equiv.Perm (Fin E)}
    (h : ∀ i, eEmb2.link_dists_from_origin i = eEmb.link_dists_from_origin (p i))
    (i : Fin E) (j : Fin L) :
    calculate_weight_matrix eEmb2 lEmb d i j = calculate_weight_matrix eEmb lEmb d (p i) j := by
  rw [calculate_weight_matrix_entry, calculate_weight_matrix_entry]
  have hM : (fun (a : Fin E) (b : Fin L) =>
        |eEmb2.link_dists_from_origin a - lEmb.link_dists_from_origin b| * -d)
      = fun a b => |eEmb.link_dists_from_origin (p a) - lEmb.link_dists_from_origin b| * -d := by
    funext a b; rw [h]
  rw [hM, softmax_axis0_perm_left
    (fun a b => |eEmb.link_dists_from_origin a - lEmb.link_dists_from_origin b| * -d) p,
    softmax_axis1_perm_left
    (fun a b => |eEmb.link_dists_from_origin a - lEmb.link_dists_from_origin b| * -d) p]

/-- Reordering the learner chain positions by `q` reorders the weight-matrix
columns by `q`. -/
lemma calculate_weight_matrix_perm_learner {E L : ℕ} {eEmb : Embodiment E}
    {lEmb lEmb2 : Embodiment L} {d : ℝ} {q : Equiv.Perm (Fin L)}
    (h : ∀ j, lEmb2.link_dists_from_origin j = lEmb.link_dists_from_origin (q j))
    (i : Fin E) (j : Fin L) :
    calculate_weight_matrix eEmb lEmb2 d i j = calculate_weight_matrix eEmb lEmb d i (q j) := by
  rw [calculate_weight_matrix_entry, calculate_weight_matrix_entry]
  have hM : (fun (a : Fin E) (b : Fin L) =>
        |eEmb.link_dists_from_origin a - lEmb2.link_dists_from_origin b| * -d)
      = fun a b => |eEmb.link_dists_from_origin a - lEmb.link_dists_from_origin (q b)| * -d := by
    funext a b; rw [h]
  rw [hM, softmax_axis0_perm_right
    (fun a b => |eEmb.link_dists_from_origin a - lEmb.link_dists_from_origin b| * -d) q,
    softmax_axis1_perm_right
    (fun a b => |eEmb.link_dists_from_origin a - lEmb.link_dists_from_origin b| * -d) q]

/-- C8: reordering one embodiment's links by a permutation — its chain
positions (hence the corresponding axis of the recomputed weight matrix) and
its per-link data matrices reordered by the same permutation — leaves the
scalar reward unchanged; stated for the expert side and for the learner
side. -/
theorem claim_C8 {E L : ℕ} (eEmb eEmb2 : Embodiment E) (lEmb lEmb2 : Embodiment L) (d : ℝ)
    (ea ev ea2 ev2 : Fin E → ℝ) (la lv la2 lv2 : Fin L → ℝ)
    (p : Equiv.Perm (Fin E)) (q : Equiv.Perm (Fin L)) :
    ((∀ i, eEmb2.link_dists_from_origin i = eEmb.link_dists_from_origin (p i)) →
      (∀ i, eEmb2.data_matrices ea2 ev2 i = eEmb.data_matrices ea ev (p i)) →
      calculate_reward eEmb2 lEmb (calculate_weight_matrix eEmb2 lEmb d) ea2 ev2 la lv
        = calculate_reward eEmb lEmb (calculate_weight_matrix eEmb lEmb d) ea ev la lv)
    ∧ ((∀ j, lEmb2.link_dists_from_origin j = lEmb.link_dists_from_origin (q j)) →
      (∀ j, lEmb2.data_matrices la2 lv2 j = lEmb.data_matrices la lv (q j)) →
      calculate_reward eEmb lEmb2 (calculate_weight_matrix eEmb lEmb2 d) ea ev la2 lv2
        = calculate_reward eEmb lEmb (calculate_weight_matrix eEmb lEmb d) ea ev la lv) := by
  constructor
  · intro hdist hdm
    rw [calculate_reward_eq, calculate_reward_eq]
    congr 1
    rw [← Equiv.sum_comp p (fun i => ∑ j, -link_distance (eEmb.data_matrices ea ev i)
      (lEmb.data_matrices la lv j) * calculate_weight_matrix eEmb lEmb d i j)]
    refine Finset.sum_congr rfl fun i _ => Finset.sum_congr rfl fun j _ => ?_
    rw [hdm i, calculate_weight_matrix_perm_expert hdist i j]
  · intro hdist hdm
    rw [calculate_reward_eq, calculate_reward_eq]
    congr 1
    refine Finset.sum_congr rfl fun i _ => ?_
    rw [← Equiv.sum_comp q (fun j => -link_distance (eEmb.data_matrices ea ev i)
      (lEmb.data_matrices la lv j) * calculate_weight_matrix eEmb lEmb d i j)]
    refine Finset.sum_congr rfl fun j _ => ?_
    rw [hdm j, calculate_weight_matrix_perm_learner hdist i j]

theorem claim_C8_witness :
    calculate_reward one_link_embodiment one_link_embodiment
        (calculate_weight_matrix one_link_embodiment one_link_embodiment 100)
        (fun _ => 0) (fun _ => 0) (fun _ => 0) (fun _ => 0)
      = calculate_reward one_link_embodiment one_link_embodiment
        (calculate_weight_matrix one_link_embodiment one_link_embodiment 100)
        (fun _ => 0) (fun _ => 0) (fun _ => 0) (fun _ => 0) :=
  (claim_C8 one_link_embodiment one_link_embodiment one_link_embodiment one_link_embodiment 100
    (fun _ => 0) (fun _ => 0) (fun _ => 0) (fun _ => 0)
    (fun _ => 0) (fun _ => 0) (fun _ => 0) (fun _ => 0)
    (Equiv.refl (Fin 1)) (Equiv.refl (Fin 1))).1 (fun _ => rfl) (fun _ => rfl)

/-! ## `cartesian_product` (gazebo_env.py, lines 56–79)

The inputs are numpy arrays: a sequence of elements sharing one per-element
shape (`np.shape(list)[1:]`).  The element payload is kept as a flat list of
reals; the assert compares the per-element shapes.  `np.repeat(list1, n, 0)`
repeats each element `n` times consecutively, `np.tile(list2, reps)` cycles
the whole second list, and stacking them along axis 1 pairs them up
element-by-element, so the flat result is the zip of the two. -/

structure ShapeMismatch where

structure NdList where
  elemShape : List ℕ
  elems : List (List ℝ)

inductive CartesianProductResult where
  | flat : List (List ℝ × List ℝ) → CartesianProductResult
  | grid : List (List (List ℝ × List ℝ)) → CartesianProductResult

/-- `np.repeat(xs, n, 0)`: each element repeated `n` times consecutively. -/
def list_repeat {α : Type} (xs : List α) (n : ℕ) : List α :=
  xs.flatMap fun a => List.replicate n a

/-- `np.tile(xs, m)` along the first axis: the whole list cycled `m` times. -/
def list_tile {α : Type} (xs : List α) (m : ℕ) : List α :=
  (List.replicate m xs).flatten

/-- Row-major `np.reshape` of a flat list into `m` consecutive rows of `n`. -/
def reshape_grid {α : Type} : ℕ → ℕ → List α → List (List α)
  | 0, _, _ => []
  | m + 1, n, xs => xs.take n :: reshape_grid m n (xs.drop n)

def cartesian_product (list1 list2 : NdList) (flat : Bool) :
    Except ShapeMismatch CartesianProductResult :=
  if list1.elemShape = list2.elemShape then
    let flat_cartesian_product :=
      List.zip (list_repeat list1.elems list2.elems.length)
        (list_tile list2.elems list1.elems.length)
    if flat then Except.ok (CartesianProductResult.flat flat_cartesian_product)
    else Except.ok (CartesianProductResult.grid
      (reshape_grid list1.elems.length list2.elems.length flat_cartesian_product))
  else Except.error ShapeMismatch.mk

lemma zip_replicate_map {α β : Type} (a : α) (B : List β) :
    List.zip (List.replicate B.length a) B = B.map fun b => (a, b) := by
  induction B with
  | nil => rfl
  | cons b B ih => simp only [List.length_cons, List.replicate_succ, List.zip_cons_cons,
      List.map_cons, ih]

/-- The flat cartesian product is the expert-major list of all ordered pairs,
second component varying fastest. -/
lemma zip_repeat_tile {α β : Type} (A : List α) (B : List β) :
    List.zip (list_repeat A B.length) (list_tile B A.length)
      = A.flatMap fun a => B.map fun b => (a, b) := by
  induction A with
  | nil => rfl
  | cons a A ih =>
    simp only [list_repeat, list_tile, List.flatMap_cons, List.length_cons,
      List.replicate_succ, List.flatten_cons] at ih ⊢
    rw [List.zip_append (by simp), zip_replicate_map, ih]

lemma flatMap_pairs_length {α β : Type} (A : List α) (B : List β) :
    (A.flatMap fun a => B.map fun b => (a, b)).length = A.length * B.length := by
  induction A with
  | nil => simp
  | cons a A ih =>
    simp only [List.flatMap_cons, List.length_append, List.length_map, List.length_cons, ih]
    ring

lemma reshape_grid_flatMap {α β : Type} (A : List α) (B : List β) :
    reshape_grid A.length B.length (A.flatMap fun a => B.map fun b => (a, b))
      = A.map fun a => B.map fun b => (a, b) := by
  induction A with
  | nil => rfl
  | cons a A ih =>
    simp only [List.flatMap_cons, List.length_cons, List.map_cons, reshape_grid]
    rw [List.take_left' (by simp), List.drop_left' (by simp), ih]

/-- C5: `cartesian_product` fails with `ShapeMismatch` exactly when the
per-element shapes differ; with equal shapes and `flat=True` it returns the
list of all `m*n` ordered pairs with the second sequence varying fastest (in
particular `[[a,b],[a,c]]` on the spec's scalar example), and with
`flat=False` it returns the `m × n` grid whose `(i, j)` cell is
`(A[i], B[j])`. -/
theorem claim_C5 (list1 list2 : NdList) (flat : Bool) (a b c : ℝ) :
    ((cartesian_product list1 list2 flat = Except.error ShapeMismatch.mk)
        ↔ list1.elemShape ≠ list2.elemShape)
      ∧ (list1.elemShape = list2.elemShape →
          cartesian_product list1 list2 true
            = Except.ok (CartesianProductResult.flat
                (list1.elems.flatMap fun x => list2.elems.map fun y => (x, y))))
      ∧ (list1.elems.flatMap fun x => list2.elems.map fun y => (x, y)).length
          = list1.elems.length * list2.elems.length
      ∧ cartesian_product ⟨[], [[a]]⟩ ⟨[], [[b], [c]]⟩ true
          = Except.ok (CartesianProductResult.flat [([a], [b]), ([a], [c])])
      ∧ (list1.elemShape = list2.elemShape →
          cartesian_product list1 list2 false
            = Except.ok (CartesianProductResult.grid
                (list1.elems.map fun x => list2.elems.map fun y => (x, y)))) := by
  refine ⟨?_, ?_, flatMap_pairs_length list1.elems list2.elems, ?_, ?_⟩
  · constructor
    · intro h hshape
      rw [cartesian_product, if_pos hshape] at h
      cases flat <;> simp at h
    · intro hne
      rw [cartesian_product, if_neg hne]
  · intro hshape
    rw [cartesian_product, if_pos hshape, if_pos rfl, zip_repeat_tile]
  · rw [cartesian_product, if_pos rfl, if_pos rfl, zip_repeat_tile]
    simp [List.flatMap_cons]
  · intro hshape
    rw [cartesian_product, if_pos hshape, if_neg (by simp : ¬ false = true),
      zip_repeat_tile, reshape_grid_flatMap]

theorem claim_C5_witness :
    cartesian_product ⟨[], [[1]]⟩ ⟨[], [[2], [3]]⟩ true
      = Except.ok (CartesianProductResult.flat
          (([[1]] : List (List ℝ)).flatMap fun x =>
            ([[2], [3]] : List (List ℝ)).map fun y => (x, y))) :=
  (claim_C5 ⟨[], [[1]]⟩ ⟨[], [[2], [3]]⟩ true 1 2 3).2.1 rfl
